import Mathlib

/-!
Verification of the distriproxy reverse proxy (fd0/distriproxy).

This file gives a shallow embedding of the request-forwarding engine of the
repository: the method/abuse guard (RejectProxyRequests), the Forwarder
(Proxy / NewProxy / Proxy.ServeHTTP), the header filter
(filterHeadersToUpstream), the route table (config), the ServeMux-style
dispatch used by main (patterns prefix+"/" plus the "/" catch-all, with the
implicit redirect for a path equal to a subtree pattern minus its trailing
slash), and the exit-code behaviour of main around graceful shutdown.

Modelling conventions:
  - Header collections are functions from header name to the list of values
    for that name (the empty list means the header is absent).  This matches
    Go's map from name to value slice; order of distinct names is
    irrelevant, order of values within one name is the list order.
  - The external upstream HTTP client (ctxhttp.Do) is a parameter
    doUpstream : UpstreamRequest -> Option UpstreamResponse; none models a
    failed call (connection refused, timeout, DNS failure, canceled
    context).  Success or failure of http.NewRequest (which in Go depends
    on URL parsing) is a Boolean parameter buildOk.
  - Handlers return a Response together with the number of upstream calls
    they issued, so that "no upstream contact" claims are statable.
  - Body streaming is collapsed to the body string; the incremental copy
    and its failure modes are not needed by any claim proved here.
-/

namespace Distriproxy

/-- Header collections: name to list of values; [] means absent. -/
abbrev Headers := String → List String

/-- The empty header collection. -/
def hdrEmpty : Headers := fun _ => []

/-- Header.Set: replace all values of a name by a single value. -/
def hdrSet (h : Headers) (nm v : String) : Headers :=
  fun n => if n = nm then [v] else h n

/-- Header.Add: append one value to the values of a name. -/
def hdrAdd (h : Headers) (nm v : String) : Headers :=
  fun n => if n = nm then h n ++ [v] else h n

/-- An inbound HTTP request as seen by the handlers: method, the host part
of the request target URL (nonempty exactly for absolute-URI / proxy-style
requests), the URL path, and the request headers. -/
structure Request where
  method : String
  urlHost : String
  path : String
  header : Headers

/-- The response a handler produces for the client. -/
structure Response where
  status : Nat
  header : Headers
  body : String

/-- The request the Forwarder constructs for the upstream server. -/
structure UpstreamRequest where
  method : String
  url : String
  header : Headers

/-- A response obtained from the upstream server. -/
structure UpstreamResponse where
  statusCode : Nat
  header : Headers
  body : String

/-- RejectProxyRequests from proxy.go: reject absolute-URI (proxy-style)
requests with 400 and a plaintext body, reject methods other than GET/HEAD
with 405, otherwise pass the request to the next handler.  The Nat
component counts upstream calls. -/
def rejectProxyRequests (next : Request → Response × Nat) (req : Request) :
    Response × Nat :=
  if req.urlHost ≠ "" then
    ({ status := 400, header := hdrSet hdrEmpty "Server" "distriproxy",
       body := "this is not a proxy\n" }, 0)
  else if req.method ≠ "GET" ∧ req.method ≠ "HEAD" then
    ({ status := 405, header := hdrSet hdrEmpty "Server" "distriproxy",
       body := "" }, 0)
  else
    next req

/-- The Proxy value from proxy.go (the http.Client field is modelled by the
doUpstream parameter of Proxy.serveHTTP). -/
structure Proxy where
  Name : String
  Source : String

/-- strings.TrimRight(s, "/"): remove all trailing path separators. -/
def trimRightSlash (s : String) : String :=
  ⟨(s.data.reverse.dropWhile (fun c => c == '/')).reverse⟩

/-- The Proxy value built by NewProxy in proxy.go: the upstream origin is
normalized by stripping trailing slashes.  (NewProxy additionally wraps the
proxy in http.StripPrefix; that wrapper is newProxyHandler below.) -/
def NewProxyCore (pfxStr upstream : String) : Proxy :=
  { Name := pfxStr, Source := trimRightSlash upstream }

/-- filterHeadersToUpstream from proxy.go: request header names that are not
sent to the upstream server. -/
def filterHeadersToUpstream : List String := ["Connection", "Host"]

/-- The upstream target constructed in Proxy.ServeHTTP:
upstreamURL := p.Source + req.URL.Path. -/
def upstreamTarget (p : Proxy) (path : String) : String :=
  p.Source ++ path

/-- The upstream request constructed in Proxy.ServeHTTP: same method, target
p.Source + path, and all inbound headers except the filtered names copied
verbatim (http.NewRequest starts from an empty header map). -/
def mkUpstreamRequest (p : Proxy) (req : Request) : UpstreamRequest :=
  { method := req.method
    url := upstreamTarget p req.path
    header := fun n => if n ∈ filterHeadersToUpstream then [] else req.header n }

/-- Proxy.ServeHTTP from proxy.go.  buildOk models whether http.NewRequest
succeeded (it fails only for a malformed target); doUpstream models
ctxhttp.Do with the shared client, none being a failed call.  On
construction failure: 500, no upstream contact.  On call failure: 502, one
call, no retry.  On success: upstream headers copied verbatim, Via:
distriproxy appended, upstream status code, upstream body relayed. -/
def Proxy.serveHTTP (p : Proxy) (buildOk : Bool)
    (doUpstream : UpstreamRequest → Option UpstreamResponse)
    (req : Request) : Response × Nat :=
  if buildOk then
    match doUpstream (mkUpstreamRequest p req) with
    | none =>
        ({ status := 502, header := hdrEmpty, body := "" }, 1)
    | some res =>
        ({ status := res.statusCode
           header := hdrAdd res.header "Via" "distriproxy"
           body := res.body }, 1)
  else
    ({ status := 500, header := hdrEmpty, body := "" }, 0)

/-- strings.HasPrefix s p (also the test List.isPrefixOf used by
strings.TrimPrefix): does s start with p? -/
def strStartsWith (s p : String) : Bool :=
  p.data.isPrefixOf s.data

/-- strings.TrimPrefix(s, p): s without the leading p, or s unchanged when s
does not start with p. -/
def trimPfx (s p : String) : String :=
  if strStartsWith s p then ⟨s.data.drop p.data.length⟩ else s

/-- http.StripPrefix(pfxStr, inner): serve inner with the path shortened by
pfxStr when stripping shortens the path, otherwise a plain 404. -/
def stripPfxServe (pfxStr : String) (inner : Request → Response × Nat)
    (req : Request) : Response × Nat :=
  let stripped := trimPfx req.path pfxStr
  if stripped.length < req.path.length then
    inner { req with path := stripped }
  else
    ({ status := 404, header := hdrEmpty, body := "404 page not found\n" }, 0)

/-- NewProxy from proxy.go as a handler: StripPrefix(pfxStr, Proxy). -/
def newProxyHandler (pfxStr upstream : String) (buildOk : Bool)
    (doUpstream : UpstreamRequest → Option UpstreamResponse) :
    Request → Response × Nat :=
  stripPfxServe pfxStr
    (Proxy.serveHTTP (NewProxyCore pfxStr upstream) buildOk doUpstream)

/-- The route table from main.go (config): path prefix to upstream URL.  The
Go map is modelled as an association list; iteration order is irrelevant to
every claim. -/
def config : List (String × String) :=
  [("/debian", "https://deb.debian.org/debian"),
   ("/debian-security", "https://deb.debian.org/debian-security"),
   ("/centos", "https://ftp.halifax.rwth-aachen.de/centos"),
   ("/centos-vault", "http://vault.centos.org"),
   ("/centos-debuginfo", "http://debuginfo.centos.org"),
   ("/centos-epel", "https://mirror.netcologne.de/fedora-epel")]

/-- Outcome of the ServeMux routing decision for a path. -/
inductive MuxResult where
  | route (pfxStr origin : String)
  | redirected (location : String)
  | notFound
deriving DecidableEq

/-- The patterns registered on the mux in main: prefix+"/" for every route,
plus the "/" catch-all. -/
def registeredPatterns (routes : List (String × String)) : List String :=
  "/" :: routes.map (fun r => r.1 ++ "/")

/-- The longest route whose subtree pattern prefix+"/" is a prefix of the
path (net/http ServeMux picks the longest matching pattern). -/
def matchRoute (path : String) : List (String × String) → Option (String × String)
  | [] => none
  | r :: rest =>
    if strStartsWith path (r.1 ++ "/") then
      match matchRoute path rest with
      | none => some r
      | some b => if r.1.length < b.1.length then some b else some r
    else
      matchRoute path rest

/-- Split a character list at every '/' (the separators are consumed);
splitting the empty list yields one empty segment, so a leading '/' yields
a leading empty segment and a trailing '/' a trailing one. -/
def splitSlash : List Char → List (List Char)
  | [] => [[]]
  | c :: rest =>
    if c = '/' then [] :: splitSlash rest
    else
      match splitSlash rest with
      | [] => [[c]]
      | s :: ss => (c :: s) :: ss

/-- The segment loop of path.Clean for a rooted path, as a stack: empty
elements (repeated separators) and "." elements are dropped, ".." removes
the preceding element (and is dropped at the root, where there is nothing
to remove), and every other element is kept.  acc holds the kept elements
in reverse. -/
def cleanSegs (acc : List (List Char)) : List (List Char) → List (List Char)
  | [] => acc.reverse
  | seg :: rest =>
    if seg = [] ∨ seg = ['.'] then cleanSegs acc rest
    else if seg = ['.', '.'] then cleanSegs acc.tail rest
    else cleanSegs (seg :: acc) rest

/-- path.Clean of a rooted path followed by net/http cleanPath's
trailing-slash restoration: the cleaned path is "/" followed by the kept
elements joined by "/", with a trailing separator put back when the input
ended in one and the result is not just "/". -/
def cleanPathCore (pd : List Char) : String :=
  if '/' :: List.intercalate ['/'] (cleanSegs [] (splitSlash pd)) ≠ ['/']
      ∧ pd.getLast? = some '/' then
    ⟨('/' :: List.intercalate ['/'] (cleanSegs [] (splitSlash pd))) ++ ['/']⟩
  else
    ⟨'/' :: List.intercalate ['/'] (cleanSegs [] (splitSlash pd))⟩

/-- net/http's cleanPath: the empty path becomes "/", a missing leading
separator is added, then the rooted path.Clean with trailing-slash
restoration (cleanPathCore) is applied. -/
def cleanPath (p : String) : String :=
  if p = "" then "/"
  else cleanPathCore (if p.data.head? = some '/' then p.data else '/' :: p.data)

/-- The net/http ServeMux decision for a request path, in the order of
ServeMux.Handler: the path is canonicalized with cleanPath; if the cleaned
path is not a registered pattern but cleaned-path+"/" is, respond with the
implicit 301 redirect to cleaned-path+"/"; else if cleaning changed the
path, respond with a 301 redirect to the cleaned path; otherwise dispatch
to the longest route pattern matching the path, falling back to the "/"
catch-all (notFound). -/
def serveMuxDispatch (routes : List (String × String)) (path : String) :
    MuxResult :=
  if cleanPath path ∉ registeredPatterns routes
      ∧ (cleanPath path ++ "/") ∈ registeredPatterns routes then
    .redirected (cleanPath path ++ "/")
  else if cleanPath path ≠ path then
    .redirected (cleanPath path)
  else
    match matchRoute path routes with
    | some r => .route r.1 r.2
    | none => .notFound

/-- The catch-all handler installed on "/" in main: log and answer 404 with
a Server: distriproxy header. -/
def notFoundHandler (_req : Request) : Response × Nat :=
  ({ status := 404, header := hdrSet hdrEmpty "Server" "distriproxy",
     body := "" }, 0)

/-- The implicit ServeMux redirect response (301 with a Location header). -/
def redirectHandler (location : String) (_req : Request) : Response × Nat :=
  ({ status := 301, header := hdrSet hdrEmpty "Location" location,
     body := "" }, 0)

/-- The mux built in main: dispatch the path, then run the selected
handler on the original request. -/
def muxServe (routes : List (String × String)) (buildOk : Bool)
    (doUpstream : UpstreamRequest → Option UpstreamResponse)
    (req : Request) : Response × Nat :=
  match serveMuxDispatch routes req.path with
  | .route pfxStr origin => newProxyHandler pfxStr origin buildOk doUpstream req
  | .redirected loc => redirectHandler loc req
  | .notFound => notFoundHandler req

/-- The complete request handler of the server in main:
RejectProxyRequests wrapping the mux. -/
def handle (routes : List (String × String)) (buildOk : Bool)
    (doUpstream : UpstreamRequest → Option UpstreamResponse)
    (req : Request) : Response × Nat :=
  rejectProxyRequests (muxServe routes buildOk doUpstream) req

/-- What the serving loop (srv.Serve / srv.ServeTLS) returned in main. -/
inductive ServeResult where
  | serverClosed
  | otherError (msg : String)
deriving DecidableEq

/-- The process exit code determined by the tail of main together with the
gracefulShutdown goroutine.  serverClosed models err == http.ErrServerClosed:
main then blocks on the done channel; the channel is closed only when
srv.Shutdown returned nil (shutdownOk), while a failed or timed-out
Shutdown runs log.Fatalf, terminating the process with exit code 1.  Any
other serve error is logged and main calls os.Exit(1). -/
def mainExitCode (serveResult : ServeResult) (shutdownOk : Bool) : Nat :=
  match serveResult with
  | .serverClosed => if shutdownOk then 0 else 1
  | .otherError _ => 1

/-! Helper lemmas. -/

theorem strExt {a b : String} (h : a.data = b.data) : a = b := by
  cases a
  cases b
  cases h
  rfl

theorem head_of_dropWhile_slash :
    ∀ (l : List Char) (a : Char),
      (List.dropWhile (fun c => c == '/') l).head? = some a → a ≠ '/' := by
  intro l
  induction l with
  | nil =>
    intro a h
    simp [List.dropWhile] at h
  | cons x xs ih =>
    intro a h
    by_cases hx : x = '/'
    · rw [List.dropWhile_cons_of_pos (by simp [hx])] at h
      exact ih a h
    · rw [List.dropWhile_cons_of_neg (by simp [hx])] at h
      simp only [List.head?_cons, Option.some.injEq] at h
      intro hc
      exact hx (by rw [h, hc])

theorem trimRightSlash_no_trailing (s : String) :
    (trimRightSlash s).data.getLast? ≠ some '/' := by
  intro h
  have hd : (trimRightSlash s).data
      = (List.dropWhile (fun c => c == '/') s.data.reverse).reverse := rfl
  rw [hd, List.getLast?_reverse] at h
  exact head_of_dropWhile_slash _ _ h rfl

/-! Claims C1 to C6 and C10, about the guard and the Forwarder. -/

/-- C1: for a route with prefix P and origin O (origin normalized at
construction by stripping trailing path separators), and an inbound request
whose path after prefix stripping is "/rest", the constructed upstream
target equals O ++ "/rest" exactly (no dropped segments), and the
normalized origin has no trailing separator, so no double slash arises at
the join. -/
theorem c1_upstream_target (pfxStr upstream rest m : String) (hs : Headers) :
    (mkUpstreamRequest (NewProxyCore pfxStr upstream)
        { method := m, urlHost := "", path := "/" ++ rest, header := hs }).url
      = (NewProxyCore pfxStr upstream).Source ++ ("/" ++ rest)
    ∧ (NewProxyCore pfxStr upstream).Source = trimRightSlash upstream
    ∧ (trimRightSlash upstream).data.getLast? ≠ some '/' :=
  ⟨rfl, rfl, trimRightSlash_no_trailing upstream⟩

/-- C1 witness: the route /debian with origin https://deb.debian.org/debian/
(trailing slash stripped at construction) and stripped path /pool/a.deb. -/
theorem c1_upstream_target_witness :
    (mkUpstreamRequest (NewProxyCore "/debian" "https://deb.debian.org/debian/")
        { method := "GET", urlHost := "", path := "/" ++ "pool/a.deb",
          header := hdrEmpty }).url
      = (NewProxyCore "/debian" "https://deb.debian.org/debian/").Source
          ++ ("/" ++ "pool/a.deb")
    ∧ (NewProxyCore "/debian" "https://deb.debian.org/debian/").Source
        = trimRightSlash "https://deb.debian.org/debian/"
    ∧ (trimRightSlash "https://deb.debian.org/debian/").data.getLast? ≠ some '/' :=
  c1_upstream_target "/debian" "https://deb.debian.org/debian/" "pool/a.deb"
    "GET" hdrEmpty

/-- C2: on a successful upstream call the client response carries the
upstream status code, every upstream header copied verbatim, and exactly
one additional Via: distriproxy entry appended after any pre-existing Via
values. -/
theorem c2_response_relay (p : Proxy)
    (doUp : UpstreamRequest → Option UpstreamResponse)
    (req : Request) (res : UpstreamResponse)
    (h : doUp (mkUpstreamRequest p req) = some res) :
    (Proxy.serveHTTP p true doUp req).1.status = res.statusCode
    ∧ (∀ n, n ≠ "Via" →
        (Proxy.serveHTTP p true doUp req).1.header n = res.header n)
    ∧ (Proxy.serveHTTP p true doUp req).1.header "Via"
        = res.header "Via" ++ ["distriproxy"] := by
  have e : Proxy.serveHTTP p true doUp req
      = ({ status := res.statusCode,
           header := hdrAdd res.header "Via" "distriproxy",
           body := res.body }, 1) := by
    simp [Proxy.serveHTTP, h]
  refine ⟨by rw [e], fun n hn => ?_, ?_⟩
  · rw [e]
    simp [hdrAdd, hn]
  · rw [e]
    simp [hdrAdd]

def wClientHeaders : Headers :=
  fun n =>
    if n = "Accept" then ["text/html", "application/xml"]
    else if n = "Connection" then ["keep-alive"]
    else if n = "Host" then ["proxy.example"]
    else []

def wReq : Request :=
  { method := "GET", urlHost := "", path := "/pool/main/a.deb",
    header := wClientHeaders }

def wProxy : Proxy := NewProxyCore "/debian" "https://deb.debian.org/debian"

def wRes : UpstreamResponse :=
  { statusCode := 200
    header := fun n =>
      if n = "Via" then ["1.1 cache"]
      else if n = "Content-Length" then ["3"]
      else []
    body := "deb" }

def wNext : Request → Response × Nat :=
  fun _ => ({ status := 0, header := hdrEmpty, body := "" }, 0)

/-- C2 witness: an upstream 200 response that already carries a Via header;
both Via values are present afterwards. -/
theorem c2_response_relay_witness :
    ((fun _ : UpstreamRequest => some wRes) (mkUpstreamRequest wProxy wReq)
        = some wRes)
    ∧ (Proxy.serveHTTP wProxy true (fun _ : UpstreamRequest => some wRes)
          wReq).1.header "Via"
        = wRes.header "Via" ++ ["distriproxy"] :=
  ⟨rfl, (c2_response_relay wProxy (fun _ => some wRes) wReq wRes rfl).2.2⟩

/-- C3: the constructed upstream request never contains a header named
Connection or Host, and every other header name keeps exactly the inbound
value list (all repeated values, in order). -/
theorem c3_upstream_header_filter (p : Proxy) (req : Request) (n : String)
    (h1 : n ≠ "Connection") (h2 : n ≠ "Host") :
    (mkUpstreamRequest p req).header "Connection" = []
    ∧ (mkUpstreamRequest p req).header "Host" = []
    ∧ (mkUpstreamRequest p req).header n = req.header n := by
  refine ⟨?_, ?_, ?_⟩ <;>
    simp [mkUpstreamRequest, filterHeadersToUpstream, h1, h2]

/-- C3 witness: a request carrying Connection, Host and a repeated Accept
header; Connection and Host are dropped, Accept is kept verbatim. -/
theorem c3_upstream_header_filter_witness :
    (("Accept" : String) ≠ "Connection" ∧ ("Accept" : String) ≠ "Host")
    ∧ ((mkUpstreamRequest wProxy wReq).header "Connection" = []
      ∧ (mkUpstreamRequest wProxy wReq).header "Host" = []
      ∧ (mkUpstreamRequest wProxy wReq).header "Accept" = wReq.header "Accept") :=
  ⟨⟨by decide, by decide⟩,
    c3_upstream_header_filter wProxy wReq "Accept" (by decide) (by decide)⟩

/-- C4: a request whose target is an absolute URI (the target specifies a
host) is answered 400 with a body containing "this is not a proxy", for
every method, with no upstream contact, and independently of the next
handler (so ahead of any prefix matching). -/
theorem c4_reject_absolute_uri (next : Request → Response × Nat)
    (req : Request) (h : req.urlHost ≠ "") :
    (rejectProxyRequests next req).1.status = 400
    ∧ (∃ a b, (rejectProxyRequests next req).1.body
        = a ++ ("this is not a proxy" ++ b))
    ∧ (rejectProxyRequests next req).2 = 0
    ∧ ∀ next2, rejectProxyRequests next2 req = rejectProxyRequests next req := by
  have e : ∀ nx : Request → Response × Nat, rejectProxyRequests nx req
      = ({ status := 400, header := hdrSet hdrEmpty "Server" "distriproxy",
           body := "this is not a proxy\n" }, 0) := by
    intro nx
    simp [rejectProxyRequests, h]
  refine ⟨by rw [e], ⟨"", "\n", by rw [e]; decide⟩, by rw [e], fun n2 => by rw [e, e]⟩

def wProxyReq : Request :=
  { method := "POST", urlHost := "example.com", path := "/x",
    header := hdrEmpty }

/-- C4 witness: POST http://example.com/x, an absolute-URI target with a
non-GET method, is rejected with 400 and zero upstream calls. -/
theorem c4_reject_absolute_uri_witness :
    (wProxyReq.urlHost ≠ "")
    ∧ ((rejectProxyRequests wNext wProxyReq).1.status = 400
      ∧ (rejectProxyRequests wNext wProxyReq).2 = 0) :=
  ⟨by decide,
    ⟨(c4_reject_absolute_uri wNext wProxyReq (by decide)).1,
      (c4_reject_absolute_uri wNext wProxyReq (by decide)).2.2.1⟩⟩

/-- C5: a request that is not an absolute URI and whose method is neither
GET nor HEAD is answered 405 with no upstream contact, independently of the
next handler (so regardless of any route the path would match). -/
theorem c5_reject_bad_method (next : Request → Response × Nat)
    (req : Request) (h0 : req.urlHost = "")
    (h1 : req.method ≠ "GET") (h2 : req.method ≠ "HEAD") :
    (rejectProxyRequests next req).1.status = 405
    ∧ (rejectProxyRequests next req).2 = 0
    ∧ ∀ next2, rejectProxyRequests next2 req = rejectProxyRequests next req := by
  have e : ∀ nx : Request → Response × Nat, rejectProxyRequests nx req
      = ({ status := 405, header := hdrSet hdrEmpty "Server" "distriproxy",
           body := "" }, 0) := by
    intro nx
    simp [rejectProxyRequests, h0, h1, h2]
  refine ⟨by rw [e], by rw [e], fun n2 => by rw [e, e]⟩

def wPostReq : Request :=
  { method := "POST", urlHost := "", path := "/debian/x", header := hdrEmpty }

/-- C5 witness: POST /debian/x (a path that would match the /debian route)
is rejected with 405 and zero upstream calls. -/
theorem c5_reject_bad_method_witness :
    (wPostReq.urlHost = "" ∧ wPostReq.method ≠ "GET" ∧ wPostReq.method ≠ "HEAD")
    ∧ ((rejectProxyRequests wNext wPostReq).1.status = 405
      ∧ (rejectProxyRequests wNext wPostReq).2 = 0) :=
  ⟨⟨rfl, by decide, by decide⟩,
    ⟨(c5_reject_bad_method wNext wPostReq rfl (by decide) (by decide)).1,
      (c5_reject_bad_method wNext wPostReq rfl (by decide) (by decide)).2.1⟩⟩

/-- C6: if constructing the upstream request fails the client receives 500
and upstream is never contacted; if the upstream call fails the client
receives 502 after exactly one call (no retry); at most one upstream call
is ever issued, and exactly one when construction succeeds. -/
theorem c6_upstream_failure_handling (p : Proxy)
    (doUp : UpstreamRequest → Option UpstreamResponse) (req : Request) :
    ((Proxy.serveHTTP p false doUp req).1.status = 500
      ∧ (Proxy.serveHTTP p false doUp req).2 = 0)
    ∧ (doUp (mkUpstreamRequest p req) = none →
        (Proxy.serveHTTP p true doUp req).1.status = 502)
    ∧ (Proxy.serveHTTP p true doUp req).2 = 1
    ∧ (∀ b, (Proxy.serveHTTP p b doUp req).2 ≤ 1) := by
  refine ⟨⟨by simp [Proxy.serveHTTP], by simp [Proxy.serveHTTP]⟩,
    fun h => by simp [Proxy.serveHTTP, h], ?_, ?_⟩
  · cases h : doUp (mkUpstreamRequest p req) <;> simp [Proxy.serveHTTP, h]
  · intro b
    cases b
    · simp [Proxy.serveHTTP]
    · cases h : doUp (mkUpstreamRequest p req) <;> simp [Proxy.serveHTTP, h]

/-- C6 witness: the Forwarder for /debian with a failing upstream client:
502 with exactly one call when construction succeeds, 500 with zero calls
when it does not. -/
theorem c6_upstream_failure_handling_witness :
    ((Proxy.serveHTTP wProxy false (fun _ => none) wReq).1.status = 500
      ∧ (Proxy.serveHTTP wProxy false (fun _ => none) wReq).2 = 0)
    ∧ ((fun _ : UpstreamRequest => (none : Option UpstreamResponse))
          (mkUpstreamRequest wProxy wReq) = none →
        (Proxy.serveHTTP wProxy true (fun _ => none) wReq).1.status = 502)
    ∧ (Proxy.serveHTTP wProxy true (fun _ => none) wReq).2 = 1
    ∧ (∀ b, (Proxy.serveHTTP wProxy b (fun _ => none) wReq).2 ≤ 1) :=
  c6_upstream_failure_handling wProxy (fun _ => none) wReq

/-- C10: the Forwarder's 500 and 502 error responses carry neither a
Server: distriproxy nor a Via: distriproxy header; the Server header is set
on the guard's 400 and 405 rejections and on the 404 catch-all, and Via is
appended only on the successful relay path. -/
theorem c10_header_provenance (p : Proxy)
    (doUp : UpstreamRequest → Option UpstreamResponse) (req : Request)
    (res : UpstreamResponse) (next : Request → Response × Nat) :
    ((Proxy.serveHTTP p false doUp req).1.header "Server" = []
      ∧ (Proxy.serveHTTP p false doUp req).1.header "Via" = [])
    ∧ (doUp (mkUpstreamRequest p req) = none →
        (Proxy.serveHTTP p true doUp req).1.header "Server" = []
        ∧ (Proxy.serveHTTP p true doUp req).1.header "Via" = [])
    ∧ (req.urlHost ≠ "" →
        (rejectProxyRequests next req).1.header "Server" = ["distriproxy"]
        ∧ (rejectProxyRequests next req).1.header "Via" = [])
    ∧ (req.urlHost = "" → req.method ≠ "GET" → req.method ≠ "HEAD" →
        (rejectProxyRequests next req).1.header "Server" = ["distriproxy"]
        ∧ (rejectProxyRequests next req).1.header "Via" = [])
    ∧ (notFoundHandler req).1.header "Server" = ["distriproxy"]
    ∧ (doUp (mkUpstreamRequest p req) = some res →
        (Proxy.serveHTTP p true doUp req).1.header "Via"
          = res.header "Via" ++ ["distriproxy"]) := by
  have e1 : Proxy.serveHTTP p false doUp req
      = ({ status := 500, header := hdrEmpty, body := "" }, 0) := by
    simp [Proxy.serveHTTP]
  refine ⟨⟨by rw [e1]; rfl, by rw [e1]; rfl⟩, fun h => ?_, fun h => ?_,
    fun h0 h1 h2 => ?_, ?_, fun h => ?_⟩
  · have e2 : Proxy.serveHTTP p true doUp req
        = ({ status := 502, header := hdrEmpty, body := "" }, 1) := by
      simp [Proxy.serveHTTP, h]
    exact ⟨by rw [e2]; rfl, by rw [e2]; rfl⟩
  · have e3 : rejectProxyRequests next req
        = ({ status := 400, header := hdrSet hdrEmpty "Server" "distriproxy",
             body := "this is not a proxy\n" }, 0) := by
      simp [rejectProxyRequests, h]
    exact ⟨by rw [e3]; decide, by rw [e3]; decide⟩
  · have e4 : rejectProxyRequests next req
        = ({ status := 405, header := hdrSet hdrEmpty "Server" "distriproxy",
             body := "" }, 0) := by
      simp [rejectProxyRequests, h0, h1, h2]
    exact ⟨by rw [e4]; decide, by rw [e4]; decide⟩
  · simp [notFoundHandler, hdrSet]
  · have e5 : Proxy.serveHTTP p true doUp req
        = ({ status := res.statusCode,
             header := hdrAdd res.header "Via" "distriproxy",
             body := res.body }, 1) := by
      simp [Proxy.serveHTTP, h]
    rw [e5]
    simp [hdrAdd]

/-- C10 witness: the /debian Forwarder against a refused upstream
connection produces a 502 with no Server and no Via header. -/
theorem c10_header_provenance_witness :
    ((Proxy.serveHTTP wProxy false (fun _ => none) wReq).1.header "Server" = []
      ∧ (Proxy.serveHTTP wProxy false (fun _ => none) wReq).1.header "Via" = [])
    ∧ ((Proxy.serveHTTP wProxy true (fun _ => none) wReq).1.header "Server" = []
      ∧ (Proxy.serveHTTP wProxy true (fun _ => none) wReq).1.header "Via" = []) :=
  ⟨(c10_header_provenance wProxy (fun _ => none) wReq wRes wNext).1,
    (c10_header_provenance wProxy (fun _ => none) wReq wRes wNext).2.1 rfl⟩

/-! Claims C8 and C9, about the shutdown exit codes and the route table. -/

/-- C8 counterexample: a serve-loop error other than the closed indicator
makes the process exit with code 1 (fatal) even when shutdown completed
cleanly, contradicting the claim that such an error is not treated as
fatal. -/
theorem c8_counterexample :
    mainExitCode (ServeResult.otherError "accept tcp: accept4 failed") true = 1
    ∧ mainExitCode (ServeResult.otherError "accept tcp: accept4 failed") true ≠ 0 := by
  exact ⟨rfl, by decide⟩

/-- C8 amended: if the serving loop returns the server's closed indicator
and the drain completes cleanly, the process exits with code 0; if the
drain fails or times out the shutdown handler terminates the process with
code 1; and any other error from the serving loop is logged and the
process exits with code 1, even when shutdown completed cleanly. -/
theorem c8_exit_codes (msg : String) (shutdownOk : Bool) :
    mainExitCode ServeResult.serverClosed true = 0
    ∧ mainExitCode ServeResult.serverClosed false = 1
    ∧ mainExitCode (ServeResult.otherError msg) shutdownOk = 1 :=
  ⟨rfl, rfl, rfl⟩

/-- C9 counterexample: the configured prefixes /debian and /debian-security
are distinct, yet /debian is a proper string prefix of /debian-security, so
the claim that no configured prefix is a proper prefix of another fails on
the route table. -/
theorem c9_counterexample :
    ("/debian", "https://deb.debian.org/debian") ∈ config
    ∧ ("/debian-security", "https://deb.debian.org/debian-security") ∈ config
    ∧ ("/debian" : String) ≠ "/debian-security"
    ∧ strStartsWith "/debian-security" "/debian" = true := by
  refine ⟨by decide, by decide, by decide, by decide⟩

/-- C9 amended: the registered mount patterns are non-overlapping: for
every pair of distinct configured prefixes, neither prefix followed by the
path separator is a prefix of the other followed by the path separator, so
no request path can fall under two mount points. -/
theorem c9_mount_points (r r2 : String × String)
    (hr : r ∈ config) (hr2 : r2 ∈ config) (hne : r.1 ≠ r2.1) :
    strStartsWith (r2.1 ++ "/") (r.1 ++ "/") = false := by
  have hAll : ∀ s ∈ config, ∀ t ∈ config,
      s.1 = t.1 ∨ strStartsWith (t.1 ++ "/") (s.1 ++ "/") = false := by decide
  rcases hAll r hr r2 hr2 with h | h
  · exact absurd h hne
  · exact h

/-- C9 witness: the pair /debian and /centos of configured routes. -/
theorem c9_mount_points_witness :
    (("/debian", "https://deb.debian.org/debian") ∈ config
      ∧ ("/centos", "https://ftp.halifax.rwth-aachen.de/centos") ∈ config
      ∧ (("/debian", "https://deb.debian.org/debian") : String × String).1
          ≠ (("/centos", "https://ftp.halifax.rwth-aachen.de/centos") : String × String).1)
    ∧ strStartsWith
        ((("/centos", "https://ftp.halifax.rwth-aachen.de/centos") : String × String).1 ++ "/")
        ((("/debian", "https://deb.debian.org/debian") : String × String).1 ++ "/") = false :=
  ⟨⟨by decide, by decide, by decide⟩,
    c9_mount_points ("/debian", "https://deb.debian.org/debian")
      ("/centos", "https://ftp.halifax.rwth-aachen.de/centos")
      (by decide) (by decide) (by decide)⟩

/-! Routing lemmas for claim C7. -/

theorem matchRoute_some_mem (path : String) :
    ∀ (routes : List (String × String)) (r : String × String),
      matchRoute path routes = some r →
      r ∈ routes ∧ strStartsWith path (r.1 ++ "/") = true := by
  intro routes
  induction routes with
  | nil =>
    intro r h
    simp [matchRoute] at h
  | cons x xs ih =>
    intro r h
    by_cases hx : strStartsWith path (x.1 ++ "/") = true
    · cases hm : matchRoute path xs with
      | none =>
        simp [matchRoute, hx, hm] at h
        subst h
        exact ⟨List.mem_cons_self x xs, hx⟩
      | some b =>
        by_cases hl : x.1.length < b.1.length
        · simp [matchRoute, hx, hm, hl] at h
          subst h
          obtain ⟨hmem, hsw⟩ := ih b hm
          exact ⟨List.mem_cons_of_mem x hmem, hsw⟩
        · simp [matchRoute, hx, hm, hl] at h
          subst h
          exact ⟨List.mem_cons_self x xs, hx⟩
    · simp [matchRoute, hx] at h
      obtain ⟨hmem, hsw⟩ := ih r h
      exact ⟨List.mem_cons_of_mem x hmem, hsw⟩

theorem matchRoute_exists_of_mem (path : String) :
    ∀ (routes : List (String × String)) (r : String × String),
      r ∈ routes → strStartsWith path (r.1 ++ "/") = true →
      ∃ b, matchRoute path routes = some b := by
  intro routes
  induction routes with
  | nil =>
    intro r h _
    simp at h
  | cons x xs ih =>
    intro r hmem hsw
    by_cases hx : strStartsWith path (x.1 ++ "/") = true
    · cases hm : matchRoute path xs with
      | none =>
        exact ⟨x, by simp [matchRoute, hx, hm]⟩
      | some b =>
        by_cases hl : x.1.length < b.1.length
        · exact ⟨b, by simp [matchRoute, hx, hm, hl]⟩
        · exact ⟨x, by simp [matchRoute, hx, hm, hl]⟩
    · rcases List.mem_cons.mp hmem with he | hxs
      · subst he
        exact absurd hsw hx
      · obtain ⟨b, hb⟩ := ih r hxs hsw
        exact ⟨b, by simp [matchRoute, hx, hb]⟩

theorem mem_registeredPatterns_iff (routes : List (String × String)) (s : String) :
    s ∈ registeredPatterns routes ↔ s = "/" ∨ ∃ r ∈ routes, r.1 ++ "/" = s := by
  simp [registeredPatterns]

theorem append_slash_inj {a b : String} (h : a ++ "/" = b ++ "/") : a = b := by
  apply strExt
  have hd := congrArg String.data h
  rw [String.data_append, String.data_append] at hd
  exact List.append_cancel_right hd

theorem strStartsWith_iff {s p : String} :
    strStartsWith s p = true ↔ p.data <+: s.data := by
  simp [strStartsWith]

theorem slash_data : ("/" : String).data = ['/'] := rfl

theorem strStartsWith_weaken {s p : String}
    (h : strStartsWith s (p ++ "/") = true) : strStartsWith s p = true := by
  rw [strStartsWith_iff] at h ⊢
  rw [String.data_append] at h
  exact (List.prefix_append p.data ("/" : String).data).trans h

theorem strStartsWith_slash_length {s p : String}
    (h : strStartsWith s (p ++ "/") = true) :
    p.data.length + 1 ≤ s.data.length := by
  rw [strStartsWith_iff, String.data_append, slash_data] at h
  have hl := h.length_le
  simpa using hl

theorem stripPfxServe_enters (pfxStr : String)
    (inner : Request → Response × Nat) (req : Request)
    (h : strStartsWith req.path (pfxStr ++ "/") = true)
    (hne : pfxStr ≠ "") :
    stripPfxServe pfxStr inner req
      = inner { req with path := ⟨req.path.data.drop pfxStr.data.length⟩ } := by
  have hsw : strStartsWith req.path pfxStr = true := strStartsWith_weaken h
  have hlen : pfxStr.data.length + 1 ≤ req.path.data.length :=
    strStartsWith_slash_length h
  have hpos : 0 < pfxStr.data.length := by
    cases hd : pfxStr.data with
    | nil => exact absurd (strExt (by rw [hd])) hne
    | cons c cs => simp [hd]
  have htrim : trimPfx req.path pfxStr
      = ⟨req.path.data.drop pfxStr.data.length⟩ := by
    simp [trimPfx, hsw]
  have hlt : (⟨req.path.data.drop pfxStr.data.length⟩ : String).length
      < req.path.length := by
    show (req.path.data.drop pfxStr.data.length).length < req.path.data.length
    rw [List.length_drop]
    omega
  show (if (trimPfx req.path pfxStr).length < req.path.length then
      inner { req with path := trimPfx req.path pfxStr }
    else ({ status := 404, header := hdrEmpty, body := "404 page not found\n" }, 0))
    = inner { req with path := ⟨req.path.data.drop pfxStr.data.length⟩ }
  rw [htrim, if_pos hlt]

theorem config_pfx_ne_slash : ∀ r ∈ config, ¬ r.1 = "/" := by decide

theorem config_pfx_ne_pattern :
    ∀ r ∈ config, ∀ t ∈ config, ¬ r.1 = t.1 ++ "/" := by decide

theorem config_pfx_no_extend :
    ∀ r ∈ config, ∀ t ∈ config, strStartsWith t.1 (r.1 ++ "/") = false := by decide

theorem config_pfx_ne_empty : ∀ r ∈ config, ¬ r.1 = "" := by decide

theorem cleanPathCore_head (pd : List Char) :
    (cleanPathCore pd).data.head? = some '/' := by
  unfold cleanPathCore
  split
  · rfl
  · rfl

theorem cleanPath_ne_empty (p : String) : cleanPath p ≠ "" := by
  intro h
  unfold cleanPath at h
  split at h
  · exact absurd h (by decide)
  · have hh := cleanPathCore_head
      (if p.data.head? = some '/' then p.data else '/' :: p.data)
    rw [h] at hh
    exact absurd hh (by decide)

theorem serveMuxDispatch_clean (routes : List (String × String)) (path : String)
    (hClean : cleanPath path = path) :
    serveMuxDispatch routes path
      = if path ∉ registeredPatterns routes
            ∧ (path ++ "/") ∈ registeredPatterns routes then
          MuxResult.redirected (path ++ "/")
        else
          match matchRoute path routes with
          | some r => MuxResult.route r.1 r.2
          | none => MuxResult.notFound := by
  unfold serveMuxDispatch
  rw [hClean]
  by_cases hc : (path ∉ registeredPatterns routes
      ∧ (path ++ "/") ∈ registeredPatterns routes)
  · rw [if_pos hc, if_pos hc]
  · rw [if_neg hc, if_neg hc, if_neg (fun hne : path ≠ path => hne rfl)]

/-- C7 counterexample: /debian is a configured prefix, and a request path
equal to the prefix exactly is answered with the mux's implicit 301
redirect to /debian/, not dispatched to the route's Forwarder, contradicting
the claim that an exact-prefix path is dispatched to the Forwarder. -/
theorem c7_counterexample :
    ("/debian", "https://deb.debian.org/debian") ∈ config
    ∧ serveMuxDispatch config "/debian" = .redirected "/debian/"
    ∧ serveMuxDispatch config "/debian"
        ≠ .route "/debian" "https://deb.debian.org/debian" := by
  refine ⟨by decide, by decide, by decide⟩

/-- C7 amended: for every inbound GET/HEAD request past the guard: when
the path is in canonical form (the mux's path cleaning leaves it
unchanged), the request is dispatched to a route's Forwarder if and only
if its path begins with the route's prefix followed by the path separator,
a path equal to a configured prefix exactly receives a 301 redirect to the
prefix followed by the separator, and when neither holds the response is
the fixed 404 carrying the Server: distriproxy header; a non-canonical
path (repeated separators or dot segments) is never dispatched and
receives a 301 redirect to its canonical form, or to that form plus a
trailing separator. -/
theorem c7_routing_amended (buildOk : Bool)
    (doUp : UpstreamRequest → Option UpstreamResponse) (req : Request)
    (hHost : req.urlHost = "")
    (hMeth : req.method = "GET" ∨ req.method = "HEAD") :
    handle config buildOk doUp req = muxServe config buildOk doUp req
    ∧ (cleanPath req.path = req.path →
        ((∃ r ∈ config, strStartsWith req.path (r.1 ++ "/") = true) ↔
            ∃ pfxStr origin,
              serveMuxDispatch config req.path = .route pfxStr origin)
        ∧ (∀ pfxStr origin,
            serveMuxDispatch config req.path = .route pfxStr origin →
            (pfxStr, origin) ∈ config
            ∧ strStartsWith req.path (pfxStr ++ "/") = true
            ∧ muxServe config buildOk doUp req
                = Proxy.serveHTTP (NewProxyCore pfxStr origin) buildOk doUp
                    { req with path := ⟨req.path.data.drop pfxStr.data.length⟩ })
        ∧ (∀ r ∈ config, req.path = r.1 →
            muxServe config buildOk doUp req
              = ({ status := 301,
                   header := hdrSet hdrEmpty "Location" (req.path ++ "/"),
                   body := "" }, 0))
        ∧ ((∀ r ∈ config, strStartsWith req.path (r.1 ++ "/") = false) →
           (∀ r ∈ config, req.path ≠ r.1) →
            muxServe config buildOk doUp req
              = ({ status := 404,
                   header := hdrSet hdrEmpty "Server" "distriproxy",
                   body := "" }, 0)))
    ∧ (cleanPath req.path ≠ req.path →
        ∃ loc, (loc = cleanPath req.path ∨ loc = cleanPath req.path ++ "/")
          ∧ muxServe config buildOk doUp req
              = ({ status := 301,
                   header := hdrSet hdrEmpty "Location" loc,
                   body := "" }, 0)) := by
  have hGuard : handle config buildOk doUp req
      = muxServe config buildOk doUp req := by
    have h1 : ¬ req.urlHost ≠ "" := by simp [hHost]
    have h2 : ¬ (req.method ≠ "GET" ∧ req.method ≠ "HEAD") := by
      rcases hMeth with h | h <;> simp [h]
    simp [handle, rejectProxyRequests, h1, h2]
  have hCanon : cleanPath req.path = req.path →
      ((∃ r ∈ config, strStartsWith req.path (r.1 ++ "/") = true) ↔
          ∃ pfxStr origin,
            serveMuxDispatch config req.path = .route pfxStr origin)
      ∧ (∀ pfxStr origin,
          serveMuxDispatch config req.path = .route pfxStr origin →
          (pfxStr, origin) ∈ config
          ∧ strStartsWith req.path (pfxStr ++ "/") = true
          ∧ muxServe config buildOk doUp req
              = Proxy.serveHTTP (NewProxyCore pfxStr origin) buildOk doUp
                  { req with path := ⟨req.path.data.drop pfxStr.data.length⟩ })
      ∧ (∀ r ∈ config, req.path = r.1 →
          muxServe config buildOk doUp req
            = ({ status := 301,
                 header := hdrSet hdrEmpty "Location" (req.path ++ "/"),
                 body := "" }, 0))
      ∧ ((∀ r ∈ config, strStartsWith req.path (r.1 ++ "/") = false) →
         (∀ r ∈ config, req.path ≠ r.1) →
          muxServe config buildOk doUp req
            = ({ status := 404,
                 header := hdrSet hdrEmpty "Server" "distriproxy",
                 body := "" }, 0)) := by
    intro hClean
    have hNE : req.path ≠ "" := by
      intro h
      rw [h] at hClean
      exact cleanPath_ne_empty "" hClean
    have hNoRedir : (∃ r ∈ config, strStartsWith req.path (r.1 ++ "/") = true) →
        ¬ (req.path ∉ registeredPatterns config
            ∧ (req.path ++ "/") ∈ registeredPatterns config) := by
      rintro ⟨r, hr, hsw⟩ ⟨-, hin⟩
      rcases (mem_registeredPatterns_iff config (req.path ++ "/")).mp hin with
        h | ⟨t, ht, he⟩
      · exact hNE (append_slash_inj (h.trans (by decide)))
      · have hpt : req.path = t.1 := (append_slash_inj he).symm
        rw [hpt] at hsw
        rw [config_pfx_no_extend r hr t ht] at hsw
        exact absurd hsw (by decide)
    have hRedirCond : ∀ r ∈ config, req.path = r.1 →
        (req.path ∉ registeredPatterns config
          ∧ (req.path ++ "/") ∈ registeredPatterns config) := by
      intro r hr hpath
      constructor
      · intro hmem
        rcases (mem_registeredPatterns_iff config req.path).mp hmem with
          h | ⟨t, ht, he⟩
        · exact config_pfx_ne_slash r hr (by rw [← hpath]; exact h)
        · exact config_pfx_ne_pattern r hr t ht (by rw [← hpath]; exact he.symm)
      · exact (mem_registeredPatterns_iff config (req.path ++ "/")).mpr
          (Or.inr ⟨r, hr, by rw [hpath]⟩)
    have hNoRedir2 : (∀ r ∈ config, req.path ≠ r.1) →
        ¬ (req.path ∉ registeredPatterns config
            ∧ (req.path ++ "/") ∈ registeredPatterns config) := by
      intro hne hc
      obtain ⟨-, hin⟩ := hc
      rcases (mem_registeredPatterns_iff config (req.path ++ "/")).mp hin with
        h | ⟨t, ht, he⟩
      · exact hNE (append_slash_inj (h.trans (by decide)))
      · exact hne t ht ((append_slash_inj he).symm)
    have hIff : (∃ r ∈ config, strStartsWith req.path (r.1 ++ "/") = true) ↔
        ∃ pfxStr origin, serveMuxDispatch config req.path = .route pfxStr origin := by
      constructor
      · rintro ⟨r, hr, hsw⟩
        have hnr := hNoRedir ⟨r, hr, hsw⟩
        obtain ⟨b, hb⟩ := matchRoute_exists_of_mem req.path config r hr hsw
        refine ⟨b.1, b.2, ?_⟩
        rw [serveMuxDispatch_clean config req.path hClean, if_neg hnr, hb]
      · rintro ⟨pfxStr, origin, hd⟩
        rw [serveMuxDispatch_clean config req.path hClean] at hd
        by_cases hc : (req.path ∉ registeredPatterns config
            ∧ (req.path ++ "/") ∈ registeredPatterns config)
        · rw [if_pos hc] at hd
          exact absurd hd (by simp)
        · rw [if_neg hc] at hd
          cases hm : matchRoute req.path config with
          | none =>
            rw [hm] at hd
            exact absurd hd (by simp)
          | some b =>
            rw [hm] at hd
            obtain ⟨hmem, hsw⟩ := matchRoute_some_mem req.path config b hm
            exact ⟨b, hmem, hsw⟩
    have hRoute : ∀ pfxStr origin,
        serveMuxDispatch config req.path = .route pfxStr origin →
        (pfxStr, origin) ∈ config
        ∧ strStartsWith req.path (pfxStr ++ "/") = true
        ∧ muxServe config buildOk doUp req
            = Proxy.serveHTTP (NewProxyCore pfxStr origin) buildOk doUp
                { req with path := ⟨req.path.data.drop pfxStr.data.length⟩ } := by
      intro pfxStr origin hd
      have hd2 := hd
      rw [serveMuxDispatch_clean config req.path hClean] at hd2
      by_cases hc : (req.path ∉ registeredPatterns config
          ∧ (req.path ++ "/") ∈ registeredPatterns config)
      · rw [if_pos hc] at hd2
        exact absurd hd2 (by simp)
      · rw [if_neg hc] at hd2
        cases hm : matchRoute req.path config with
        | none =>
          rw [hm] at hd2
          exact absurd hd2 (by simp)
        | some b =>
          obtain ⟨b1, b2⟩ := b
          rw [hm] at hd2
          obtain ⟨hb1, hb2⟩ : b1 = pfxStr ∧ b2 = origin := by
            injection hd2 with hx1 hx2
            exact ⟨hx1, hx2⟩
          subst hb1
          subst hb2
          obtain ⟨hmem, hsw⟩ := matchRoute_some_mem req.path config (b1, b2) hm
          refine ⟨hmem, hsw, ?_⟩
          have hmux : muxServe config buildOk doUp req
              = newProxyHandler b1 b2 buildOk doUp req := by
            simp [muxServe, hd]
          rw [hmux]
          unfold newProxyHandler
          exact stripPfxServe_enters b1 _ req hsw
            (fun he => config_pfx_ne_empty (b1, b2) hmem he)
    have hRedirect : ∀ r ∈ config, req.path = r.1 →
        muxServe config buildOk doUp req
          = ({ status := 301,
               header := hdrSet hdrEmpty "Location" (req.path ++ "/"),
               body := "" }, 0) := by
      intro r hr hpath
      have hc := hRedirCond r hr hpath
      have hd : serveMuxDispatch config req.path
          = .redirected (req.path ++ "/") := by
        rw [serveMuxDispatch_clean config req.path hClean, if_pos hc]
      simp [muxServe, hd, redirectHandler]
    have hMiss : (∀ r ∈ config, strStartsWith req.path (r.1 ++ "/") = false) →
        (∀ r ∈ config, req.path ≠ r.1) →
        muxServe config buildOk doUp req
          = ({ status := 404,
               header := hdrSet hdrEmpty "Server" "distriproxy",
               body := "" }, 0) := by
      intro hall hne
      have hc := hNoRedir2 hne
      have hmm : matchRoute req.path config = none := by
        cases hm : matchRoute req.path config with
        | none => rfl
        | some b =>
          obtain ⟨hmem, hsw⟩ := matchRoute_some_mem req.path config b hm
          rw [hall b hmem] at hsw
          exact absurd hsw (by decide)
      have hd : serveMuxDispatch config req.path = .notFound := by
        rw [serveMuxDispatch_clean config req.path hClean, if_neg hc, hmm]
      simp [muxServe, hd, notFoundHandler]
    exact ⟨hIff, hRoute, hRedirect, hMiss⟩
  have hDirty : cleanPath req.path ≠ req.path →
      ∃ loc, (loc = cleanPath req.path ∨ loc = cleanPath req.path ++ "/")
        ∧ muxServe config buildOk doUp req
            = ({ status := 301,
                 header := hdrSet hdrEmpty "Location" loc,
                 body := "" }, 0) := by
    intro hcl
    by_cases hc : (cleanPath req.path ∉ registeredPatterns config
        ∧ (cleanPath req.path ++ "/") ∈ registeredPatterns config)
    · refine ⟨cleanPath req.path ++ "/", Or.inr rfl, ?_⟩
      have hd : serveMuxDispatch config req.path
          = .redirected (cleanPath req.path ++ "/") := by
        unfold serveMuxDispatch
        rw [if_pos hc]
      simp [muxServe, hd, redirectHandler]
    · refine ⟨cleanPath req.path, Or.inl rfl, ?_⟩
      have hd : serveMuxDispatch config req.path
          = .redirected (cleanPath req.path) := by
        unfold serveMuxDispatch
        rw [if_neg hc, if_pos hcl]
      simp [muxServe, hd, redirectHandler]
  exact ⟨hGuard, hCanon, hDirty⟩

def wGetReq : Request :=
  { method := "GET", urlHost := "", path := "/debian/pool/main/a.deb",
    header := hdrEmpty }

/-- C7 witness: GET /debian/pool/main/a.deb passes the guard and reaches
the mux. -/
theorem c7_routing_amended_witness :
    (wGetReq.urlHost = ""
      ∧ (wGetReq.method = "GET" ∨ wGetReq.method = "HEAD"))
    ∧ handle config true (fun _ => none) wGetReq
        = muxServe config true (fun _ => none) wGetReq :=
  ⟨⟨rfl, Or.inl rfl⟩,
    (c7_routing_amended true (fun _ => none) wGetReq rfl (Or.inl rfl)).1⟩

end Distriproxy
